import Mathlib

/-!
# Brightcove playlist event relay (`playlist.js`)

A shallow embedding of the four listener functions of `playlist.js`
(`onPlayerError`, `onPlayerLoaded`, `onPlayerReady`, `onMediaBegin`) together
with the part of the JavaScript runtime and of the two external collaborators
(the Brightcove player API and the `_gaq` analytics queue) that they touch.

Each listener is a function from the collaborators as they are at the time of
the call and the state before the call to an `Outcome`: the state after the
call and the error thrown, if any.  A listener that throws keeps the writes it
made before the throw, exactly as the JavaScript does.
-/

namespace Playlist

/-! ## JavaScript runtime values used by the listeners -/

/-- A JavaScript Number, that is an IEEE 754 binary64 value.  The value
`finite s m e` is `(-1) ^ s * m * 2 ^ e`; the doubles are the values with
`m < 2 ^ 53` and `-1074 ≤ e ≤ 971`, written with `2 ^ 52 ≤ m` unless
`e = -1074`, and the two zeros are `finite s 0 0`. -/
inductive JSNumber where
  | nan
  | infinity (negative : Bool)
  | finite (negative : Bool) (mant : Nat) (exp : Int)
  deriving DecidableEq, Repr

namespace JSNumber

/-- The positive rational `(num / den) / 2 ^ e` as a numerator and a
denominator. -/
def scalePow2 (num den : Nat) (e : Int) : Nat × Nat :=
  if 0 ≤ e then (num, den * 2 ^ e.toNat) else (num * 2 ^ (-e).toNat, den)

/-- The positive rational `(num / den) / 10 ^ e` as a numerator and a
denominator. -/
def scalePow10 (num den : Nat) (e : Int) : Nat × Nat :=
  if 0 ≤ e then (num, den * 10 ^ e.toNat) else (num * 10 ^ (-e).toNat, den)

/-- Floor of the binary logarithm of `n`, by halving (`fuel` bounds the number
of halvings; `n` itself is enough). -/
def log2Fuel : Nat → Nat → Nat
  | 0, _ => 0
  | fuel + 1, n => if n < 2 then 0 else log2Fuel fuel (n / 2) + 1

/-- The integer `t` with `2 ^ t ≤ num / den < 2 ^ (t + 1)`, for positive `num`
and `den`. -/
def floorLog2 (num den : Nat) : Int :=
  let t : Int := (log2Fuel num num : Int) - (log2Fuel den den : Int)
  let nd := scalePow2 num den t
  if nd.2 ≤ nd.1 then t else t - 1

/-- The double nearest to the rational `num / den` (`den` positive), ties going
to the even significand, with the sign `negative`: the rounding every
arithmetic operation and every number literal applies to its exact result.
Results beyond the largest double are infinite and results below half the
smallest double are zero. -/
def roundRat (negative : Bool) (num den : Nat) : JSNumber :=
  if num = 0 then finite negative 0 0
  else
    let e : Int := max (floorLog2 num den - 52) (-1074)
    let nd := scalePow2 num den e
    let q := nd.1 / nd.2
    let r := nd.1 % nd.2
    let m := if 2 * r < nd.2 then q else if nd.2 < 2 * r then q + 1
      else if q % 2 = 0 then q else q + 1
    if m = 0 then finite negative 0 0
    else if m = 2 ^ 53 then
      if 971 < e + 1 then infinity negative else finite negative (2 ^ 52) (e + 1)
    else if 971 < e then infinity negative else finite negative m e

/-- The number literal `n`. -/
def ofNat (n : Nat) : JSNumber := roundRat false n 1

/-- The number written as the decimal or fraction `num / den`, with a minus
sign when `negative`; `2.1` is `ofRatio false 21 10`. -/
def ofRatio (negative : Bool) (num den : Nat) : JSNumber := roundRat negative num den

/-- Whether the number is `+0` or `-0`. -/
def isZero : JSNumber → Bool
  | finite _ m _ => m == 0
  | _ => false

/-- The comparison `x != "0"`: abstract (loose) inequality of a number with the
string `"0"` converts the string to the number `0` and compares numerically, so
it is false for the two zeros and true for everything else, `NaN` included. -/
def looseNeStrZero (x : JSNumber) : Bool := !x.isZero

/-- The quotient `x / y`. -/
def div (x y : JSNumber) : JSNumber :=
  match x, y with
  | nan, _ => nan
  | _, nan => nan
  | infinity _, infinity _ => nan
  | infinity s, finite t _ _ => infinity (xor s t)
  | finite s _ _, infinity t => finite (xor s t) 0 0
  | finite s m e, finite t m2 e2 =>
    if m2 = 0 then (if m = 0 then nan else infinity (xor s t))
    else
      let nd := scalePow2 m m2 (e2 - e)
      roundRat (xor s t) nd.1 nd.2

/-- The integer `n` with `10 ^ (n - 1) ≤ num / den < 10 ^ n`, for positive `num`
and `den`. -/
def decimalExponent (num den : Nat) : Int :=
  let t : Int := ((Nat.toDigits 10 num).length : Int) - ((Nat.toDigits 10 den).length : Int)
  let nd := scalePow10 num den t
  if nd.1 < nd.2 then t else t + 1

/-- The best decimal `s * 10 ^ (n' - k)` with `k` digits that rounds to the
double `num / den`, if there is one: of the two `k`-digit decimals around the
value, the one that rounds back to it, the nearer one when both do, the even one
on a tie. -/
def candidate (num den : Nat) (n : Int) (k : Nat) : Option (Nat × Int) :=
  let x := roundRat false num den
  let pq := scalePow10 num den (n - k)
  let lo := pq.1 / pq.2
  let r := pq.1 % pq.2
  let loV := scalePow10 lo 1 (k - n)
  let hiV := scalePow10 (lo + 1) 1 (k - n)
  let okLo := decide (roundRat false loV.1 loV.2 = x)
  let okHi := decide (roundRat false hiV.1 hiV.2 = x)
  let hi : Nat × Int := if lo + 1 = 10 ^ k then (10 ^ (k - 1), n + 1) else (lo + 1, n)
  if okLo && okHi then
    if 2 * r < pq.2 then some (lo, n) else if pq.2 < 2 * r then some hi
    else if lo % 2 = 0 then some (lo, n) else some hi
  else if okLo then some (lo, n)
  else if okHi then some hi
  else none

/-- The digits `s` and the decimal exponent `n` of Number::toString: the
shortest decimal `s * 10 ^ (n - k)` (`k` the number of digits of `s`) that
rounds to the positive double `num / den`; 17 digits always suffice. -/
def shortest (num den : Nat) : Nat × Int :=
  let n := decimalExponent num den
  match (List.range 17).findSome? (fun i => candidate num den n (i + 1)) with
  | some sn => sn
  | none => (0, 0)

/-- The layout of Number::toString for the digits `s` and the decimal exponent
`n`: plain digits up to `1e21`, a decimal point inside or after `0.` down to
`1e-6`, exponent form otherwise. -/
def render (s : Nat) (n : Int) : String :=
  let ds := Nat.toDigits 10 s
  let k : Int := ds.length
  if k ≤ n ∧ n ≤ 21 then String.mk (ds ++ List.replicate (n - k).toNat '0')
  else if 0 < n ∧ n ≤ 21 then String.mk (ds.take n.toNat ++ ['.'] ++ ds.drop n.toNat)
  else if -6 < n ∧ n ≤ 0 then String.mk (['0', '.'] ++ List.replicate (-n).toNat '0' ++ ds)
  else
    let ex := (if 0 ≤ n - 1 then "e+" else "e-") ++ Nat.repr (n - 1).natAbs
    if ds.length = 1 then String.mk ds ++ ex
    else String.mk (ds.take 1 ++ ['.'] ++ ds.drop 1) ++ ex

/-- The string conversion applied when a number is concatenated to a string
(`"" + x`), Number::toString in radix 10. -/
def toStr : JSNumber → String
  | nan => "NaN"
  | infinity s => if s then "-Infinity" else "Infinity"
  | finite s m e =>
    if m = 0 then "0"
    else
      let nd := scalePow2 m 1 (-e)
      let sn := shortest nd.1 nd.2
      (if s then "-" else "") ++ render sn.1 sn.2

end JSNumber

/-- The errors a listener can end with. -/
inductive JSError where
  /-- Property access on `undefined` (an unset reference). -/
  | typeError
  /-- Use of a global variable that was never declared. -/
  | referenceError
  /-- An error thrown by the player API itself. -/
  | apiError
  deriving DecidableEq, Repr

/-! ## The external collaborators -/

/-- Opaque handle to a player instance (an "experience"). -/
structure Player where
  handle : Nat
  deriving DecidableEq, Repr

/-- Opaque handle to a module of a player. -/
structure Module where
  handle : Nat
  deriving DecidableEq, Repr

/-- The two module kinds the file asks for: `APIModules.EXPERIENCE` and
`APIModules.VIDEO_PLAYER`. -/
inductive APIModules where
  | EXPERIENCE
  | VIDEO_PLAYER
  deriving DecidableEq, Repr

/-- The six media-event kinds the file registers for: `BCMediaEvent.BEGIN`,
`COMPLETE`, `CHANGE`, `ERROR`, `PLAY` and `STOP`. -/
inductive BCMediaEvent where
  | BEGIN
  | COMPLETE
  | CHANGE
  | ERROR
  | PLAY
  | STOP
  deriving DecidableEq, Repr

/-- The functions declared in `playlist.js`, as values that can be handed to
`addEventListener`. -/
inductive Handler where
  | onPlayerError
  | onPlayerLoaded
  | onPlayerReady
  | onMediaBegin
  deriving DecidableEq, Repr

/-- The object returned by `getCurrentVideo()`. -/
structure Video where
  id : JSNumber
  displayName : String
  length : JSNumber
  deriving DecidableEq, Repr

/-- What `brightcove.getExperience(id)` does with an identifier. -/
inductive Lookup where
  /-- The identifier resolves to a player. -/
  | found (p : Player)
  /-- The identifier is not resolved and the call returns `undefined`. -/
  | missing
  /-- The call throws. -/
  | raises
  deriving DecidableEq, Repr

/-- Modelled from the spec: the Video Player API and the host page context of
section 6, which are not part of `playlist.js`.  `getExperience(id)` yields a
player or fails to resolve (section 4.1), `Player.getModule(kind)` yields a
module, `VideoPlayerModule.getCurrentVideo()` yields the current video and
`pathname` is `location.pathname`.  A value of this type is the collaborators
as they are during one listener call. -/
structure Host where
  getExperience : String → Lookup
  getModule : Player → APIModules → Module
  getCurrentVideo : Module → Video
  pathname : String

/-- The media event object handed to `onMediaBegin`. -/
structure MediaEvent where
  type : String
  position : JSNumber
  deriving DecidableEq, Repr

/-- One array pushed on `_gaq`: `[command, category, label, value]`. -/
structure TrackCall where
  command : String
  category : String
  label : String
  value : String
  deriving DecidableEq, Repr

/-- The global `_gaq`. -/
inductive Gaq where
  /-- No global of that name exists. -/
  | undeclared
  /-- The global exists and holds `undefined`. -/
  | undefinedValue
  /-- The queue, with the arrays pushed so far, oldest first. -/
  | queue (calls : List TrackCall)
  deriving DecidableEq, Repr

/-- One `addEventListener(kind, handler)` call received by a module. -/
structure Registration where
  target : Module
  kind : BCMediaEvent
  handler : Handler
  deriving DecidableEq, Repr

/-! ## Program state -/

/-- The four module-level variables of `playlist.js` (`none` is `undefined`),
the analytics queue and the listener registrations made so far. -/
structure State where
  BCLplayer : Option Player
  BCLexperienceModule : Option Module
  BCLvideoPlayer : Option Module
  BCLcurrentVideo : Option Video
  gaq : Gaq
  listeners : List Registration
  deriving DecidableEq, Repr

/-- The state when the script has been loaded and no listener has run. -/
def State.initial (g : Gaq) : State :=
  { BCLplayer := none, BCLexperienceModule := none, BCLvideoPlayer := none,
    BCLcurrentVideo := none, gaq := g, listeners := [] }

/-- The result of running a listener: the state it leaves and the error it
threw, if any. -/
structure Outcome where
  state : State
  thrown : Option JSError
  deriving DecidableEq, Repr

/-- The call `_gaq.push(t)`. -/
def gaqPush (t : TrackCall) (s : State) : Outcome :=
  match s.gaq with
  | .undeclared => ⟨s, some .referenceError⟩
  | .undefinedValue => ⟨s, some .typeError⟩
  | .queue calls => ⟨{ s with gaq := .queue (calls ++ [t]) }, none⟩

/-- The call `m.addEventListener(kind, handler)`. -/
def addEventListener (m : Module) (kind : BCMediaEvent) (handler : Handler) (s : State) : State :=
  { s with listeners := s.listeners ++ [⟨m, kind, handler⟩] }

/-! ## The listeners -/

/-- Listener for player errors: the body is an empty comment. -/
def onPlayerError {α : Type} (_event : α) (s : State) : Outcome :=
  ⟨s, none⟩

/-- Listener for when the player is loaded. -/
def onPlayerLoaded (h : Host) (id : String) (s : State) : Outcome :=
  -- BCLplayer = brightcove.getExperience(id);
  match h.getExperience id with
  | .raises => ⟨s, some .apiError⟩
  | .missing =>
    let s1 := { s with BCLplayer := none }
    -- BCLplayer.getModule(...) on undefined
    ⟨s1, some .typeError⟩
  | .found p =>
    let s1 := { s with BCLplayer := some p }
    -- BCLexperienceModule = BCLplayer.getModule(APIModules.EXPERIENCE);
    ⟨{ s1 with BCLexperienceModule := some (h.getModule p .EXPERIENCE) }, none⟩

/-- Listener for when the player is ready. -/
def onPlayerReady {α : Type} (h : Host) (_event : α) (s : State) : Outcome :=
  -- BCLvideoPlayer = BCLplayer.getModule(APIModules.VIDEO_PLAYER);
  match s.BCLplayer with
  | none => ⟨s, some .typeError⟩
  | some p =>
    let m := h.getModule p .VIDEO_PLAYER
    let s := { s with BCLvideoPlayer := some m }
    let s := addEventListener m .BEGIN .onMediaBegin s
    let s := addEventListener m .COMPLETE .onMediaBegin s
    let s := addEventListener m .CHANGE .onMediaBegin s
    let s := addEventListener m .ERROR .onMediaBegin s
    let s := addEventListener m .PLAY .onMediaBegin s
    let s := addEventListener m .STOP .onMediaBegin s
    ⟨s, none⟩

/-- Listener for media events. -/
def onMediaBegin (h : Host) (event : MediaEvent) (s : State) : Outcome :=
  match s.BCLvideoPlayer with
  | none => ⟨s, some .typeError⟩
  | some vp =>
    let BCLcurrentVideoID := (h.getCurrentVideo vp).id
    let BCLcurrentVideoNAME := (h.getCurrentVideo vp).displayName
    let value := BCLcurrentVideoNAME ++ " - " ++ BCLcurrentVideoID.toStr
    if event.type = "mediaBegin" then
      let currentVideoLength := (h.getCurrentVideo vp).length
      let currentVideoLength :=
        if currentVideoLength.looseNeStrZero then currentVideoLength.div (JSNumber.ofNat 1000)
        else currentVideoLength
      -- if (typeof _gaq != "undefined") _gaq.push([...]);
      match s.gaq with
      | .queue _ =>
        gaqPush ⟨"_trackEvent", h.pathname, event.type ++ " - " ++ currentVideoLength.toStr, value⟩ s
      | _ => ⟨s, none⟩
    else if event.type = "mediaPlay" then
      gaqPush ⟨"_trackEvent", h.pathname, event.type ++ " - " ++ event.position.toStr, value⟩ s
    else if event.type = "mediaStop" then
      gaqPush ⟨"_trackEvent", h.pathname, event.type ++ " - " ++ event.position.toStr, value⟩ s
    else if event.type = "mediaChange" then
      gaqPush ⟨"_trackEvent", h.pathname, event.type ++ " - " ++ event.position.toStr, value⟩ s
    else if event.type = "mediaComplete" then
      gaqPush ⟨"_trackEvent", h.pathname, event.type ++ " - " ++ event.position.toStr, value⟩ s
    else
      gaqPush ⟨"_trackEvent", h.pathname, event.type, value⟩ s

/-! ## Sequences of listener calls -/

/-- One callback delivered by the hosting page. -/
inductive Call where
  | playerError
  | playerLoaded (id : String)
  | playerReady
  | mediaEvent (event : MediaEvent)
  deriving DecidableEq, Repr

/-- Deliver one callback. -/
def step (h : Host) (c : Call) (s : State) : Outcome :=
  match c with
  | .playerError => onPlayerError () s
  | .playerLoaded id => onPlayerLoaded h id s
  | .playerReady => onPlayerReady h () s
  | .mediaEvent e => onMediaBegin h e s

/-- Deliver a sequence of callbacks, each with the collaborators as they are at
that time.  An error thrown by a listener is reported to the page and the next
callback runs on the state the failed listener left. -/
def run : List (Host × Call) → State → State
  | [], s => s
  | (h, c) :: rest, s => run rest (step h c s).state

/-! ## Concrete collaborators used to instantiate the theorems -/

/-- A page at `/content/videos.html` whose player `"myExperience"` resolves to
player 1, whose modules are numbered after the player, and whose video player
module reports the video "Intro" (id 42, 5000 ms). -/
def demoHost : Host :=
  { getExperience := fun id => if id = "myExperience" then .found ⟨1⟩ else .missing
    getModule := fun p k => match k with
      | .EXPERIENCE => ⟨10 * p.handle⟩
      | .VIDEO_PLAYER => ⟨10 * p.handle + 1⟩
    getCurrentVideo := fun _ => ⟨JSNumber.ofNat 42, "Intro", JSNumber.ofNat 5000⟩
    pathname := "/content/videos.html" }

/-- The same page once the player has moved on to the video "Outro" (id 43,
1500 ms). -/
def demoHostNext : Host :=
  { demoHost with getCurrentVideo := fun _ => ⟨JSNumber.ofNat 43, "Outro", JSNumber.ofNat 1500⟩ }

/-- The state after the load and ready callbacks on `demoHost`, starting with an
empty `_gaq`: player 1, experience module 10, video player module 11 and the
six listeners. -/
def demoReady : State :=
  run [(demoHost, .playerLoaded "myExperience"), (demoHost, .playerReady)]
    (State.initial (.queue []))

/-- The state `demoReady` on a page without the analytics snippet. -/
def demoReadyNoQueue : State := { demoReady with gaq := .undeclared }

/-- The callbacks of a page where the player loads and becomes ready and a
second load notification then names an experience the player API does not
know. -/
def demoFailedReload : List (Host × Call) :=
  [(demoHost, .playerLoaded "myExperience"), (demoHost, .playerReady),
   (demoHost, .playerLoaded "otherExperience")]

/-- The callbacks of a page where a media event and a ready notification arrive
too early (both throw), the player then loads and becomes ready, a video begins
and plays, and a second load notification makes the player API throw. -/
def demoSession : List (Host × Call) :=
  [(demoHost, .mediaEvent ⟨"mediaPlay", JSNumber.ofNat 0⟩), (demoHost, .playerReady),
   (demoHost, .playerLoaded "myExperience"), (demoHost, .playerReady),
   (demoHost, .mediaEvent ⟨"mediaBegin", JSNumber.ofNat 0⟩),
   (demoHostNext, .mediaEvent ⟨"mediaPlay", JSNumber.ofNat 12⟩),
   ({ demoHost with getExperience := fun _ => .raises }, .playerLoaded "otherExperience"),
   (demoHost, .playerError)]

/-! ## Theorems -/

set_option maxRecDepth 100000
set_option exponentiation.threshold 2000

/-- The pair computed by `scalePow2` has a positive denominator and is the
rational `(num / den) / 2 ^ e`. -/
theorem JSNumber.scalePow2_spec (num den : Nat) (e : Int) (hden : 0 < den) :
    0 < (scalePow2 num den e).2 ∧
    ((scalePow2 num den e).1 : ℚ) / ((scalePow2 num den e).2 : ℚ) =
      (num : ℚ) / (den : ℚ) / (2 : ℚ) ^ e := by
  unfold scalePow2
  split_ifs with he
  · refine ⟨Nat.mul_pos hden (by positivity), ?_⟩
    have h2 : (2 : ℚ) ^ e = (2 : ℚ) ^ e.toNat := by
      conv_lhs => rw [← Int.toNat_of_nonneg he]
      exact zpow_natCast 2 e.toNat
    simp only [Nat.cast_mul, Nat.cast_pow, Nat.cast_ofNat]
    rw [h2, div_div]
  · refine ⟨hden, ?_⟩
    have hneg : 0 ≤ -e := by omega
    have h2 : (2 : ℚ) ^ e = ((2 : ℚ) ^ (-e).toNat)⁻¹ := by
      have : e = -((-e).toNat : Int) := by rw [Int.toNat_of_nonneg hneg]; ring
      conv_lhs => rw [this]
      rw [zpow_neg, zpow_natCast]
    simp only [Nat.cast_mul, Nat.cast_pow, Nat.cast_ofNat]
    rw [h2]
    field_simp

/-- Rounding a quotient of naturals to the nearest integer, ties to even, moves
it by at most one half. -/
theorem JSNumber.roundHalfEven_close (n d : Nat) (hd : 0 < d) :
    2 * |(((if 2 * (n % d) < d then n / d else if d < 2 * (n % d) then n / d + 1
        else if n / d % 2 = 0 then n / d else n / d + 1 : Nat) : ℚ)) - (n : ℚ) / d| ≤ 1 := by
  have hdq : (0 : ℚ) < d := by exact_mod_cast hd
  have hn : (n : ℚ) = (d : ℚ) * ((n / d : Nat) : ℚ) + ((n % d : Nat) : ℚ) := by
    exact_mod_cast (Nat.div_add_mod n d).symm
  have hlow : 2 * (n % d) ≤ d →
      2 * |(((n / d : Nat) : ℚ)) - (n : ℚ) / d| ≤ 1 := by
    intro h
    have hq : (2 : ℚ) * ((n % d : Nat) : ℚ) ≤ d := by exact_mod_cast h
    have e1 : (((n / d : Nat) : ℚ)) - (n : ℚ) / d = -(((n % d : Nat) : ℚ) / d) := by
      rw [hn]; field_simp; ring
    rw [e1, abs_neg, abs_of_nonneg (by positivity)]
    rw [← mul_div_assoc, div_le_one hdq]
    exact hq
  have hhigh : d ≤ 2 * (n % d) →
      2 * |(((n / d + 1 : Nat) : ℚ)) - (n : ℚ) / d| ≤ 1 := by
    intro h
    have hq : (d : ℚ) ≤ 2 * ((n % d : Nat) : ℚ) := by exact_mod_cast h
    have hlt : ((n % d : Nat) : ℚ) < d := by exact_mod_cast Nat.mod_lt n hd
    have e1 : (((n / d + 1 : Nat) : ℚ)) - (n : ℚ) / d = ((d : ℚ) - ((n % d : Nat) : ℚ)) / d := by
      rw [hn]; push_cast; field_simp; ring
    rw [e1, abs_of_nonneg (div_nonneg (by linarith) hdq.le)]
    rw [← mul_div_assoc, div_le_one hdq]
    linarith
  split_ifs with h1 h2 h3
  · exact hlow (by omega)
  · exact hhigh (by omega)
  · exact hlow (by omega)
  · exact hhigh (by omega)

/-- A non-zero finite result of `roundRat` has the sign asked for and lies
within half a unit in its last place of the rational rounded. -/
theorem JSNumber.roundRat_close (neg : Bool) (num den : Nat) (hden : 0 < den)
    (s : Bool) (m : Nat) (e : Int)
    (hr : roundRat neg num den = finite s m e) (hm : m ≠ 0) :
    s = neg ∧ 2 * |(m : ℚ) * (2 : ℚ) ^ e - (num : ℚ) / den| ≤ (2 : ℚ) ^ e := by
  unfold roundRat at hr
  split_ifs at hr with h0
  · simp only [finite.injEq] at hr
    exact absurd hr.2.1.symm hm
  · simp only at hr
    generalize he0 : max (floorLog2 num den - 52) (-1074) = e0 at hr
    obtain ⟨hd, hv⟩ := scalePow2_spec num den e0 hden
    have hcl := roundHalfEven_close (scalePow2 num den e0).1 (scalePow2 num den e0).2 hd
    generalize hmr : (if 2 * ((scalePow2 num den e0).1 % (scalePow2 num den e0).2) <
        (scalePow2 num den e0).2 then (scalePow2 num den e0).1 / (scalePow2 num den e0).2
      else if (scalePow2 num den e0).2 <
        2 * ((scalePow2 num den e0).1 % (scalePow2 num den e0).2) then
          (scalePow2 num den e0).1 / (scalePow2 num den e0).2 + 1
      else if (scalePow2 num den e0).1 / (scalePow2 num den e0).2 % 2 = 0 then
        (scalePow2 num den e0).1 / (scalePow2 num den e0).2
      else (scalePow2 num den e0).1 / (scalePow2 num den e0).2 + 1) = mr at hr hcl
    rw [hv] at hcl
    have hpos : (0 : ℚ) < (2 : ℚ) ^ e0 := by positivity
    have hbase : 2 * |(mr : ℚ) * (2 : ℚ) ^ e0 - (num : ℚ) / den| ≤ (2 : ℚ) ^ e0 := by
      have e1 : (mr : ℚ) * (2 : ℚ) ^ e0 - (num : ℚ) / den =
          ((mr : ℚ) - (num : ℚ) / den / (2 : ℚ) ^ e0) * (2 : ℚ) ^ e0 := by
        field_simp
        ring
      rw [e1, abs_mul, abs_of_pos hpos, ← mul_assoc]
      calc 2 * |(mr : ℚ) - (num : ℚ) / den / (2 : ℚ) ^ e0| * (2 : ℚ) ^ e0
          ≤ 1 * (2 : ℚ) ^ e0 := by
            exact mul_le_mul_of_nonneg_right hcl hpos.le
        _ = (2 : ℚ) ^ e0 := one_mul _
    split_ifs at hr with hz hb ho ho2
    · simp only [finite.injEq] at hr
      exact absurd hr.2.1.symm hm
    · simp only [finite.injEq] at hr
      obtain ⟨hs, hmm, hee⟩ := hr
      refine ⟨hs.symm, ?_⟩
      rw [← hmm, ← hee]
      have hstep : (2 : ℚ) ^ (e0 + 1) = 2 * (2 : ℚ) ^ e0 := by
        rw [zpow_add_one₀ (by norm_num)]; ring
      have hval : ((2 ^ 52 : Nat) : ℚ) * (2 : ℚ) ^ (e0 + 1) = (mr : ℚ) * (2 : ℚ) ^ e0 := by
        rw [hstep, hb]; push_cast; ring
      rw [hval, hstep]
      linarith
    · simp only [finite.injEq] at hr
      obtain ⟨hs, hmm, hee⟩ := hr
      refine ⟨hs.symm, ?_⟩
      rw [← hmm, ← hee]
      exact hbase

/-- A non-zero finite quotient of two finite numbers has the sign of the exact
quotient and lies within half a unit in its last place of it. -/
theorem JSNumber.div_close (s t : Bool) (m m2 : Nat) (e e2 : Int) (hm2 : m2 ≠ 0)
    (s' : Bool) (m' : Nat) (e' : Int)
    (hdiv : (finite s m e).div (finite t m2 e2) = finite s' m' e') (hm' : m' ≠ 0) :
    s' = xor s t ∧
    2 * |(m' : ℚ) * (2 : ℚ) ^ e' - (m : ℚ) * (2 : ℚ) ^ e / ((m2 : ℚ) * (2 : ℚ) ^ e2)| ≤
      (2 : ℚ) ^ e' := by
  simp only [div, if_neg hm2] at hdiv
  obtain ⟨_, hv⟩ := scalePow2_spec m m2 (e2 - e) (Nat.pos_of_ne_zero hm2)
  obtain ⟨hs, hb⟩ := roundRat_close _ _ _ (scalePow2_spec m m2 (e2 - e) (Nat.pos_of_ne_zero hm2)).1
    s' m' e' hdiv hm'
  refine ⟨hs, ?_⟩
  rw [hv] at hb
  have hm2q : (m2 : ℚ) ≠ 0 := by exact_mod_cast hm2
  have e1 : (m : ℚ) / (m2 : ℚ) / (2 : ℚ) ^ (e2 - e) =
      (m : ℚ) * (2 : ℚ) ^ e / ((m2 : ℚ) * (2 : ℚ) ^ e2) := by
    rw [zpow_sub₀ (by norm_num : (2 : ℚ) ≠ 0)]
    have h1 : (2 : ℚ) ^ e ≠ 0 := by positivity
    have h2 : (2 : ℚ) ^ e2 ≠ 0 := by positivity
    field_simp
  rw [e1] at hb
  exact hb

/-- A non-zero finite quotient by the literal `1000` keeps the sign and lies
within half a unit in its last place of the exact quotient by 1000. -/
theorem JSNumber.div_thousand_close (s : Bool) (m : Nat) (e : Int) (s' : Bool) (m' : Nat) (e' : Int)
    (hdiv : (finite s m e).div (ofNat 1000) = finite s' m' e') (hm' : m' ≠ 0) :
    s' = s ∧
    2 * |(m' : ℚ) * (2 : ℚ) ^ e' - (m : ℚ) * (2 : ℚ) ^ e / 1000| ≤ (2 : ℚ) ^ e' := by
  have h1000 : ofNat 1000 = finite false 8796093022208000 (-43) := by decide
  rw [h1000] at hdiv
  obtain ⟨hs, hb⟩ := div_close s false m 8796093022208000 e (-43) (by norm_num) s' m' e' hdiv hm'
  refine ⟨by simpa using hs, ?_⟩
  have hk : ((8796093022208000 : Nat) : ℚ) * (2 : ℚ) ^ (-43 : Int) = 1000 := by
    norm_num [zpow_neg]
  rw [hk] at hb
  exact hb

/-- Pushing on `_gaq` touches no module-level reference and no listener. -/
theorem gaqPush_frame (t : TrackCall) (s : State) :
    (gaqPush t s).state.BCLplayer = s.BCLplayer ∧
    (gaqPush t s).state.BCLexperienceModule = s.BCLexperienceModule ∧
    (gaqPush t s).state.BCLvideoPlayer = s.BCLvideoPlayer ∧
    (gaqPush t s).state.BCLcurrentVideo = s.BCLcurrentVideo ∧
    (gaqPush t s).state.listeners = s.listeners := by
  unfold gaqPush
  cases s.gaq <;> exact ⟨rfl, rfl, rfl, rfl, rfl⟩

/-- The media listener touches no module-level reference and no listener,
whether it returns or throws. -/
theorem onMediaBegin_frame (h : Host) (event : MediaEvent) (s : State) :
    (onMediaBegin h event s).state.BCLplayer = s.BCLplayer ∧
    (onMediaBegin h event s).state.BCLexperienceModule = s.BCLexperienceModule ∧
    (onMediaBegin h event s).state.BCLvideoPlayer = s.BCLvideoPlayer ∧
    (onMediaBegin h event s).state.BCLcurrentVideo = s.BCLcurrentVideo ∧
    (onMediaBegin h event s).state.listeners = s.listeners := by
  unfold onMediaBegin
  split
  · exact ⟨rfl, rfl, rfl, rfl, rfl⟩
  · simp only
    split_ifs
    all_goals
      first
        | exact gaqPush_frame _ s
        | (split <;> first | exact gaqPush_frame _ s | exact ⟨rfl, rfl, rfl, rfl, rfl⟩)

/-- The `mediaBegin` branch with the queue defined: the state after the call,
with the array pushed written out. -/
theorem onMediaBegin_mediaBegin_run (h : Host) (event : MediaEvent) (s : State)
    (vp : Module) (q : List TrackCall)
    (htype : event.type = "mediaBegin") (hvp : s.BCLvideoPlayer = some vp)
    (hq : s.gaq = .queue q) :
    onMediaBegin h event s =
      ⟨{ s with gaq := .queue (q ++ [⟨"_trackEvent", h.pathname,
          "mediaBegin - " ++
            (if (h.getCurrentVideo vp).length.isZero then (h.getCurrentVideo vp).length
             else (h.getCurrentVideo vp).length.div (JSNumber.ofNat 1000)).toStr,
          (h.getCurrentVideo vp).displayName ++ " - " ++
            (h.getCurrentVideo vp).id.toStr⟩]) }, none⟩ := by
  by_cases hz : (h.getCurrentVideo vp).length.isZero = true <;>
    simp [onMediaBegin, hvp, hq, htype, gaqPush, JSNumber.looseNeStrZero, hz]

/-- C1: for an event of type "mediaBegin", with the video player module set and
the analytics queue defined, `onMediaBegin` returns normally having pushed one
array whose label is "mediaBegin - " followed by the rendered length: the raw
length itself when it is 0, the raw length divided by 1000 otherwise.  Raw
length 0 gives "mediaBegin - 0" and raw length 5000 gives "mediaBegin - 5";
further raw lengths (1500, 1, 215999, 2.1, 9007199254740991, -0, NaN) give the
labels JavaScript's double division and number-to-string conversion give.  For
every finite non-zero raw length whose quotient is a non-zero double, the number
rendered has the sign of the raw length and lies within half a unit in its last
place of the exact quotient by 1000. -/
theorem onMediaBegin_mediaBegin_label (h : Host) (event : MediaEvent) (s : State)
    (vp : Module) (q : List TrackCall)
    (htype : event.type = "mediaBegin") (hvp : s.BCLvideoPlayer = some vp)
    (hq : s.gaq = .queue q) :
    ∃ t : TrackCall,
      onMediaBegin h event s = ⟨{ s with gaq := .queue (q ++ [t]) }, none⟩ ∧
      t.label = "mediaBegin - " ++
        (if (h.getCurrentVideo vp).length.isZero then (h.getCurrentVideo vp).length
         else (h.getCurrentVideo vp).length.div (JSNumber.ofNat 1000)).toStr ∧
      ((h.getCurrentVideo vp).length = JSNumber.ofNat 0 → t.label = "mediaBegin - 0") ∧
      ((h.getCurrentVideo vp).length = JSNumber.ofNat 5000 → t.label = "mediaBegin - 5") ∧
      ((h.getCurrentVideo vp).length = JSNumber.ofNat 1500 → t.label = "mediaBegin - 1.5") ∧
      ((h.getCurrentVideo vp).length = JSNumber.ofNat 1 → t.label = "mediaBegin - 0.001") ∧
      ((h.getCurrentVideo vp).length = JSNumber.ofNat 215999 →
        t.label = "mediaBegin - 215.999") ∧
      ((h.getCurrentVideo vp).length = JSNumber.ofRatio false 21 10 →
        t.label = "mediaBegin - 0.0021000000000000003") ∧
      ((h.getCurrentVideo vp).length = JSNumber.ofNat 9007199254740991 →
        t.label = "mediaBegin - 9007199254740.99") ∧
      ((h.getCurrentVideo vp).length = JSNumber.finite true 0 0 →
        t.label = "mediaBegin - 0") ∧
      ((h.getCurrentVideo vp).length = JSNumber.nan → t.label = "mediaBegin - NaN") ∧
      (∀ (sg : Bool) (m : Nat) (e : Int) (sg2 : Bool) (m2 : Nat) (e2 : Int),
        (h.getCurrentVideo vp).length = JSNumber.finite sg m e → m ≠ 0 →
        (JSNumber.finite sg m e).div (JSNumber.ofNat 1000) = JSNumber.finite sg2 m2 e2 →
        m2 ≠ 0 →
        t.label = "mediaBegin - " ++ (JSNumber.finite sg2 m2 e2).toStr ∧ sg2 = sg ∧
        2 * |(m2 : ℚ) * (2 : ℚ) ^ e2 - (m : ℚ) * (2 : ℚ) ^ e / 1000| ≤ (2 : ℚ) ^ e2) := by
  have hrun := onMediaBegin_mediaBegin_run h event s vp q htype hvp hq
  generalize (h.getCurrentVideo vp).length = len at hrun ⊢
  have key : ∀ (x : JSNumber) (r : String),
      "mediaBegin - " ++ (if x.isZero then x else x.div (JSNumber.ofNat 1000)).toStr = r →
      len = x →
      (TrackCall.mk "_trackEvent" h.pathname
        ("mediaBegin - " ++ (if len.isZero then len else len.div (JSNumber.ofNat 1000)).toStr)
        ((h.getCurrentVideo vp).displayName ++ " - " ++
          (h.getCurrentVideo vp).id.toStr)).label = r := by
    intro x r hr hx
    rw [hx]
    exact hr
  refine ⟨_, hrun, rfl, key _ _ (by decide), key _ _ (by decide), key _ _ (by decide),
    key _ _ (by decide), key _ _ (by decide), key _ _ (by decide), key _ _ (by decide),
    key _ _ (by decide), key _ _ (by decide), ?_⟩
  intro sg m e sg2 m2 e2 hlen hm hdiv hm2
  obtain ⟨hs, hb⟩ := JSNumber.div_thousand_close sg m e sg2 m2 e2 hdiv hm2
  refine ⟨?_, hs, hb⟩
  show "mediaBegin - " ++ (if len.isZero then len else len.div (JSNumber.ofNat 1000)).toStr = _
  rw [hlen, ← hdiv]
  simp [JSNumber.isZero, hm]

/-- Witness for C1 on the demo page: the video is 5000 ms long, that is the
double `5497558138880000 * 2 ^ -40`, the quotient is the double
`5629499534213120 * 2 ^ -50`, that is 5, and the label pushed is
"mediaBegin - 5". -/
theorem onMediaBegin_mediaBegin_label_witness :
    (MediaEvent.mk "mediaBegin" (JSNumber.ofNat 0)).type = "mediaBegin" ∧
    demoReady.BCLvideoPlayer = some ⟨11⟩ ∧ demoReady.gaq = .queue [] ∧
    (demoHost.getCurrentVideo ⟨11⟩).length = JSNumber.ofNat 5000 ∧
    (demoHost.getCurrentVideo ⟨11⟩).length = JSNumber.finite false 5497558138880000 (-40) ∧
    (JSNumber.finite false 5497558138880000 (-40)).div (JSNumber.ofNat 1000) =
      JSNumber.finite false 5629499534213120 (-50) ∧
    ∃ t : TrackCall,
      onMediaBegin demoHost ⟨"mediaBegin", JSNumber.ofNat 0⟩ demoReady =
        ⟨{ demoReady with gaq := .queue ([] ++ [t]) }, none⟩ ∧
      t.label = "mediaBegin - 5" ∧
      t.label = "mediaBegin - " ++ (JSNumber.finite false 5629499534213120 (-50)).toStr ∧
      2 * |((5629499534213120 : Nat) : ℚ) * (2 : ℚ) ^ (-50 : Int) -
        ((5497558138880000 : Nat) : ℚ) * (2 : ℚ) ^ (-40 : Int) / 1000| ≤
          (2 : ℚ) ^ (-50 : Int) :=
  ⟨rfl, rfl, rfl, rfl, by decide, by decide,
    (onMediaBegin_mediaBegin_label demoHost ⟨"mediaBegin", JSNumber.ofNat 0⟩ demoReady ⟨11⟩ []
      rfl rfl rfl).imp fun _ ht =>
        ⟨ht.1, ht.2.2.2.1 rfl,
          (ht.2.2.2.2.2.2.2.2.2.2.2 false 5497558138880000 (-40) false 5629499534213120 (-50)
            (by decide) (by decide) (by decide) (by decide)).1,
          (ht.2.2.2.2.2.2.2.2.2.2.2 false 5497558138880000 (-40) false 5629499534213120 (-50)
            (by decide) (by decide) (by decide) (by decide)).2.2⟩⟩

/-- C2: for an event of type "mediaPlay", "mediaStop", "mediaChange" or
"mediaComplete" and any position, with the video player module set and the
analytics queue defined, `onMediaBegin` returns normally having pushed one array
whose label is the event type, then " - ", then the position; type "mediaPlay"
with position 12 gives "mediaPlay - 12", and further positions (0, 12.345, 0.1,
0.1 + 0.2, 1e-7, 1e21, -1.5, NaN) are rendered as JavaScript's number-to-string
conversion renders them. -/
theorem onMediaBegin_position_label (h : Host) (event : MediaEvent) (s : State)
    (vp : Module) (q : List TrackCall)
    (htype : event.type = "mediaPlay" ∨ event.type = "mediaStop" ∨
      event.type = "mediaChange" ∨ event.type = "mediaComplete")
    (hvp : s.BCLvideoPlayer = some vp) (hq : s.gaq = .queue q) :
    ∃ t : TrackCall,
      onMediaBegin h event s = ⟨{ s with gaq := .queue (q ++ [t]) }, none⟩ ∧
      t.label = event.type ++ " - " ++ event.position.toStr ∧
      (event = ⟨"mediaPlay", JSNumber.ofNat 12⟩ → t.label = "mediaPlay - 12") ∧
      (event.position = JSNumber.ofNat 12 → t.label = event.type ++ " - " ++ "12") ∧
      (event.position = JSNumber.ofNat 0 → t.label = event.type ++ " - " ++ "0") ∧
      (event.position = JSNumber.ofRatio false 12345 1000 →
        t.label = event.type ++ " - " ++ "12.345") ∧
      (event.position = JSNumber.ofRatio false 1 10 → t.label = event.type ++ " - " ++ "0.1") ∧
      (event.position = JSNumber.ofRatio false 30000000000000004 100000000000000000 →
        t.label = event.type ++ " - " ++ "0.30000000000000004") ∧
      (event.position = JSNumber.ofRatio false 1 10000000 →
        t.label = event.type ++ " - " ++ "1e-7") ∧
      (event.position = JSNumber.ofNat 1000000000000000000000 →
        t.label = event.type ++ " - " ++ "1e+21") ∧
      (event.position = JSNumber.ofRatio true 3 2 → t.label = event.type ++ " - " ++ "-1.5") ∧
      (event.position = JSNumber.nan → t.label = event.type ++ " - " ++ "NaN") := by
  have key : ∀ (x : JSNumber) (r : String), x.toStr = r → event.position = x →
      (TrackCall.mk "_trackEvent" h.pathname (event.type ++ " - " ++ event.position.toStr)
        ((h.getCurrentVideo vp).displayName ++ " - " ++
          (h.getCurrentVideo vp).id.toStr)).label = event.type ++ " - " ++ r := by
    intro x r hr hx
    rw [hx, ← hr]
  refine ⟨⟨"_trackEvent", h.pathname, event.type ++ " - " ++ event.position.toStr,
    (h.getCurrentVideo vp).displayName ++ " - " ++ (h.getCurrentVideo vp).id.toStr⟩, ?_, rfl, ?_,
    key _ _ (by decide), key _ _ (by decide), key _ _ (by decide), key _ _ (by decide),
    key _ _ (by decide), key _ _ (by decide), key _ _ (by decide), key _ _ (by decide),
    key _ _ (by decide)⟩
  · rcases htype with ht | ht | ht | ht <;>
      simp [onMediaBegin, hvp, hq, gaqPush, ht]
  · intro he
    rw [he]
    show "mediaPlay" ++ " - " ++ (JSNumber.ofNat 12).toStr = "mediaPlay - 12"
    decide

/-- Witness for C2 on the demo page: "mediaPlay" at position 12. -/
theorem onMediaBegin_position_label_witness :
    ((MediaEvent.mk "mediaPlay" (JSNumber.ofNat 12)).type = "mediaPlay" ∨
      (MediaEvent.mk "mediaPlay" (JSNumber.ofNat 12)).type = "mediaStop" ∨
      (MediaEvent.mk "mediaPlay" (JSNumber.ofNat 12)).type = "mediaChange" ∨
      (MediaEvent.mk "mediaPlay" (JSNumber.ofNat 12)).type = "mediaComplete") ∧
    demoReady.BCLvideoPlayer = some ⟨11⟩ ∧ demoReady.gaq = .queue [] ∧
    ∃ t : TrackCall,
      onMediaBegin demoHost ⟨"mediaPlay", JSNumber.ofNat 12⟩ demoReady =
        ⟨{ demoReady with gaq := .queue ([] ++ [t]) }, none⟩ ∧
      t.label = "mediaPlay - 12" :=
  ⟨Or.inl rfl, rfl, rfl,
    (onMediaBegin_position_label demoHost ⟨"mediaPlay", JSNumber.ofNat 12⟩ demoReady ⟨11⟩ []
      (Or.inl rfl) rfl rfl).imp fun _ ht => ⟨ht.1, ht.2.2.1 rfl⟩⟩

/-- C3: for an event whose type is none of "mediaBegin", "mediaPlay",
"mediaStop", "mediaChange", "mediaComplete" (compared as strings, case
included), with the video player module set and the analytics queue defined,
`onMediaBegin` returns normally having pushed one array whose label is the event
type alone, whatever the position. -/
theorem onMediaBegin_default_label (h : Host) (event : MediaEvent) (s : State)
    (vp : Module) (q : List TrackCall)
    (h1 : event.type ≠ "mediaBegin") (h2 : event.type ≠ "mediaPlay")
    (h3 : event.type ≠ "mediaStop") (h4 : event.type ≠ "mediaChange")
    (h5 : event.type ≠ "mediaComplete")
    (hvp : s.BCLvideoPlayer = some vp) (hq : s.gaq = .queue q) :
    ∃ t : TrackCall,
      onMediaBegin h event s = ⟨{ s with gaq := .queue (q ++ [t]) }, none⟩ ∧
      t.label = event.type := by
  refine ⟨⟨"_trackEvent", h.pathname, event.type,
    (h.getCurrentVideo vp).displayName ++ " - " ++ (h.getCurrentVideo vp).id.toStr⟩, ?_, rfl⟩
  simp [onMediaBegin, hvp, hq, gaqPush, h1, h2, h3, h4, h5]

/-- Witness for C3 on the demo page: the type "MEDIAPLAY" differs from
"mediaPlay" by case only and is tracked bare. -/
theorem onMediaBegin_default_label_witness :
    (MediaEvent.mk "MEDIAPLAY" (JSNumber.ofNat 12)).type ≠ "mediaBegin" ∧
    (MediaEvent.mk "MEDIAPLAY" (JSNumber.ofNat 12)).type ≠ "mediaPlay" ∧
    (MediaEvent.mk "MEDIAPLAY" (JSNumber.ofNat 12)).type ≠ "mediaStop" ∧
    (MediaEvent.mk "MEDIAPLAY" (JSNumber.ofNat 12)).type ≠ "mediaChange" ∧
    (MediaEvent.mk "MEDIAPLAY" (JSNumber.ofNat 12)).type ≠ "mediaComplete" ∧
    demoReady.BCLvideoPlayer = some ⟨11⟩ ∧ demoReady.gaq = .queue [] ∧
    ∃ t : TrackCall,
      onMediaBegin demoHost ⟨"MEDIAPLAY", JSNumber.ofNat 12⟩ demoReady =
        ⟨{ demoReady with gaq := .queue ([] ++ [t]) }, none⟩ ∧
      t.label = (MediaEvent.mk "MEDIAPLAY" (JSNumber.ofNat 12)).type :=
  ⟨by decide, by decide, by decide, by decide, by decide, rfl, rfl,
    onMediaBegin_default_label demoHost ⟨"MEDIAPLAY", JSNumber.ofNat 12⟩ demoReady ⟨11⟩ []
      (by decide) (by decide) (by decide) (by decide) (by decide) rfl rfl⟩

/-- Every branch of the media listener with the queue defined: one array is
pushed, with the page path, some label and the display name, " - " and the
rendered id of the video reported during the call. -/
theorem onMediaBegin_run (h : Host) (event : MediaEvent) (s : State)
    (vp : Module) (q : List TrackCall)
    (hvp : s.BCLvideoPlayer = some vp) (hq : s.gaq = .queue q) :
    ∃ label : String,
      onMediaBegin h event s =
        ⟨{ s with gaq := .queue (q ++ [⟨"_trackEvent", h.pathname, label,
            (h.getCurrentVideo vp).displayName ++ " - " ++ (h.getCurrentVideo vp).id.toStr⟩]) },
          none⟩ := by
  unfold onMediaBegin
  simp only [hvp, hq, gaqPush]
  split_ifs <;> exact ⟨_, rfl⟩

/-- C4: for a media event of any type, with the video player module set and
the analytics queue defined, `onMediaBegin` returns normally and appends exactly
one array to the queue: command "_trackEvent", category the page path at the
time of the call, a label, and value the display name, " - " and the id of the
video the module reports during this call.  For two successive events the
second array carries the video reported during the second call, nothing of the
first.  For the display name "Intro" the ids 42, 1754276221001 and 2 ^ 64 give
the values "Intro - 42", "Intro - 1754276221001" and
"Intro - 18446744073709552000", and the id literals 9007199254740993 and
9007199254740995, which lie halfway between two doubles, give
"Intro - 9007199254740992" and "Intro - 9007199254740996". -/
theorem onMediaBegin_pushes_one (h : Host) (event : MediaEvent) (s : State)
    (vp : Module) (q : List TrackCall)
    (hvp : s.BCLvideoPlayer = some vp) (hq : s.gaq = .queue q) :
    (∃ label : String,
      onMediaBegin h event s =
        ⟨{ s with gaq := .queue (q ++ [⟨"_trackEvent", h.pathname, label,
            (h.getCurrentVideo vp).displayName ++ " - " ++ (h.getCurrentVideo vp).id.toStr⟩]) },
          none⟩) ∧
    (∀ (h2 : Host) (event2 : MediaEvent), ∃ label label2 : String,
      onMediaBegin h2 event2 (onMediaBegin h event s).state =
        ⟨{ s with gaq := .queue (q ++
            [⟨"_trackEvent", h.pathname, label,
              (h.getCurrentVideo vp).displayName ++ " - " ++ (h.getCurrentVideo vp).id.toStr⟩,
             ⟨"_trackEvent", h2.pathname, label2,
              (h2.getCurrentVideo vp).displayName ++ " - " ++
                (h2.getCurrentVideo vp).id.toStr⟩]) },
          none⟩) ∧
    ((h.getCurrentVideo vp).displayName = "Intro" →
      ((h.getCurrentVideo vp).id = JSNumber.ofNat 42 → ∃ label : String,
        onMediaBegin h event s =
          ⟨{ s with gaq := .queue (q ++
              [⟨"_trackEvent", h.pathname, label, "Intro - 42"⟩]) }, none⟩) ∧
      ((h.getCurrentVideo vp).id = JSNumber.ofNat 1754276221001 → ∃ label : String,
        onMediaBegin h event s =
          ⟨{ s with gaq := .queue (q ++
              [⟨"_trackEvent", h.pathname, label, "Intro - 1754276221001"⟩]) }, none⟩) ∧
      ((h.getCurrentVideo vp).id = JSNumber.ofNat 18446744073709551616 → ∃ label : String,
        onMediaBegin h event s =
          ⟨{ s with gaq := .queue (q ++
              [⟨"_trackEvent", h.pathname, label, "Intro - 18446744073709552000"⟩]) },
            none⟩) ∧
      ((h.getCurrentVideo vp).id = JSNumber.ofNat 9007199254740993 → ∃ label : String,
        onMediaBegin h event s =
          ⟨{ s with gaq := .queue (q ++
              [⟨"_trackEvent", h.pathname, label, "Intro - 9007199254740992"⟩]) }, none⟩) ∧
      ((h.getCurrentVideo vp).id = JSNumber.ofNat 9007199254740995 → ∃ label : String,
        onMediaBegin h event s =
          ⟨{ s with gaq := .queue (q ++
              [⟨"_trackEvent", h.pathname, label, "Intro - 9007199254740996"⟩]) }, none⟩)) := by
  refine ⟨onMediaBegin_run h event s vp q hvp hq, ?_, ?_⟩
  · intro h2 event2
    obtain ⟨label, hl⟩ := onMediaBegin_run h event s vp q hvp hq
    obtain ⟨label2, hl2⟩ := onMediaBegin_run h2 event2 (onMediaBegin h event s).state vp
      (q ++ [⟨"_trackEvent", h.pathname, label,
        (h.getCurrentVideo vp).displayName ++ " - " ++ (h.getCurrentVideo vp).id.toStr⟩])
      (by rw [hl]; exact hvp) (by rw [hl])
    refine ⟨label, label2, ?_⟩
    rw [hl2, hl]
    simp
  · intro hname
    obtain ⟨label, hl⟩ := onMediaBegin_run h event s vp q hvp hq
    have key : ∀ (x : JSNumber) (r : String), "Intro" ++ " - " ++ x.toStr = r →
        (h.getCurrentVideo vp).id = x → ∃ label : String,
        onMediaBegin h event s =
          ⟨{ s with gaq := .queue (q ++ [⟨"_trackEvent", h.pathname, label, r⟩]) }, none⟩ := by
      intro x r hr hx
      refine ⟨label, ?_⟩
      rw [hl, hname, hx, hr]
    exact ⟨key _ _ (by decide), key _ _ (by decide), key _ _ (by decide), key _ _ (by decide),
      key _ _ (by decide)⟩

/-- Witness for C4 on the demo page: a "mediaPlay" event while the video
"Intro" (id 42) is current pushes the value "Intro - 42". -/
theorem onMediaBegin_pushes_one_witness :
    demoReady.BCLvideoPlayer = some ⟨11⟩ ∧ demoReady.gaq = .queue [] ∧
    (demoHost.getCurrentVideo ⟨11⟩).displayName = "Intro" ∧
    (demoHost.getCurrentVideo ⟨11⟩).id = JSNumber.ofNat 42 ∧
    ∃ label : String,
      onMediaBegin demoHost ⟨"mediaPlay", JSNumber.ofNat 12⟩ demoReady =
        ⟨{ demoReady with gaq := .queue ([] ++
            [⟨"_trackEvent", "/content/videos.html", label, "Intro - 42"⟩]) }, none⟩ :=
  ⟨rfl, rfl, rfl, rfl,
    ((onMediaBegin_pushes_one demoHost ⟨"mediaPlay", JSNumber.ofNat 12⟩ demoReady ⟨11⟩ []
      rfl rfl).2.2 rfl).1 rfl⟩

/-- C5: with the analytics queue undefined and the video player module set,
`onMediaBegin` on a "mediaBegin" event returns normally and leaves the state as
it was (no tracking call); on an event of any other type it throws and leaves
the state as it was; so it succeeds exactly when the type is "mediaBegin". -/
theorem onMediaBegin_queue_undefined (h : Host) (event : MediaEvent) (s : State)
    (vp : Module)
    (hvp : s.BCLvideoPlayer = some vp)
    (hq : s.gaq = .undeclared ∨ s.gaq = .undefinedValue) :
    (event.type = "mediaBegin" → onMediaBegin h event s = ⟨s, none⟩) ∧
    (event.type ≠ "mediaBegin" → ∃ err : JSError, onMediaBegin h event s = ⟨s, some err⟩) ∧
    ((onMediaBegin h event s).thrown = none ↔ event.type = "mediaBegin") := by
  have hb : event.type = "mediaBegin" → onMediaBegin h event s = ⟨s, none⟩ := by
    intro ht
    rcases hq with hq | hq <;> simp [onMediaBegin, hvp, hq, ht]
  have ho : event.type ≠ "mediaBegin" →
      ∃ err : JSError, onMediaBegin h event s = ⟨s, some err⟩ := by
    intro ht
    rcases hq with hq | hq
    · refine ⟨.referenceError, ?_⟩
      unfold onMediaBegin
      simp only [hvp, hq, gaqPush, if_neg ht]
      split_ifs <;> rfl
    · refine ⟨.typeError, ?_⟩
      unfold onMediaBegin
      simp only [hvp, hq, gaqPush, if_neg ht]
      split_ifs <;> rfl
  refine ⟨hb, ho, ?_, ?_⟩
  · intro hn
    by_contra ht
    obtain ⟨err, he⟩ := ho ht
    rw [he] at hn
    exact absurd hn (by simp)
  · intro ht
    rw [hb ht]

/-- Witness for C5 on the demo page without the analytics snippet. -/
theorem onMediaBegin_queue_undefined_witness :
    demoReadyNoQueue.BCLvideoPlayer = some ⟨11⟩ ∧
    (demoReadyNoQueue.gaq = .undeclared ∨ demoReadyNoQueue.gaq = .undefinedValue) ∧
    (((MediaEvent.mk "mediaPlay" (JSNumber.ofNat 12)).type = "mediaBegin" →
      onMediaBegin demoHost ⟨"mediaPlay", JSNumber.ofNat 12⟩ demoReadyNoQueue =
        ⟨demoReadyNoQueue, none⟩) ∧
    ((MediaEvent.mk "mediaPlay" (JSNumber.ofNat 12)).type ≠ "mediaBegin" →
      ∃ err : JSError,
        onMediaBegin demoHost ⟨"mediaPlay", JSNumber.ofNat 12⟩ demoReadyNoQueue =
          ⟨demoReadyNoQueue, some err⟩) ∧
    ((onMediaBegin demoHost ⟨"mediaPlay", JSNumber.ofNat 12⟩ demoReadyNoQueue).thrown = none ↔
      (MediaEvent.mk "mediaPlay" (JSNumber.ofNat 12)).type = "mediaBegin")) :=
  ⟨rfl, Or.inl rfl,
    onMediaBegin_queue_undefined demoHost ⟨"mediaPlay", JSNumber.ofNat 12⟩ demoReadyNoQueue ⟨11⟩
      rfl (Or.inl rfl)⟩

/-- C7: when the video player module reference is unset, `onMediaBegin` throws
for every event and leaves the whole state (queue, listeners and module-level
references) as it was. -/
theorem onMediaBegin_unset_module (h : Host) (event : MediaEvent) (s : State)
    (hvp : s.BCLvideoPlayer = none) :
    ∃ err : JSError, onMediaBegin h event s = ⟨s, some err⟩ := by
  refine ⟨.typeError, ?_⟩
  simp [onMediaBegin, hvp]

/-- Witness for C7: a media event delivered to the freshly loaded script. -/
theorem onMediaBegin_unset_module_witness :
    (State.initial (.queue [])).BCLvideoPlayer = none ∧
    ∃ err : JSError,
      onMediaBegin demoHost ⟨"mediaBegin", JSNumber.ofNat 0⟩ (State.initial (.queue [])) =
        ⟨State.initial (.queue []), some err⟩ :=
  ⟨rfl, onMediaBegin_unset_module demoHost ⟨"mediaBegin", JSNumber.ofNat 0⟩
    (State.initial (.queue [])) rfl⟩

/-- C8: for every event argument and every state, `onPlayerError` returns
without throwing and leaves the analytics queue, the listener registrations and
every module-level reference as they were. -/
theorem onPlayerError_noop {α : Type} (event : α) (s : State) :
    (onPlayerError event s).thrown = none ∧
    (onPlayerError event s).state.gaq = s.gaq ∧
    (onPlayerError event s).state.listeners = s.listeners ∧
    (onPlayerError event s).state.BCLplayer = s.BCLplayer ∧
    (onPlayerError event s).state.BCLexperienceModule = s.BCLexperienceModule ∧
    (onPlayerError event s).state.BCLvideoPlayer = s.BCLvideoPlayer ∧
    (onPlayerError event s).state.BCLcurrentVideo = s.BCLcurrentVideo :=
  ⟨rfl, rfl, rfl, rfl, rfl, rfl, rfl⟩

/-- C6: in every state where the active player is set, `onPlayerReady` returns
normally, stores the video player module obtained from that player and makes
exactly six `addEventListener` calls, all on that module and all with the
handler `onMediaBegin`, one for each of the kinds BEGIN, COMPLETE, CHANGE,
ERROR, PLAY and STOP. -/
theorem onPlayerReady_registers_six {α : Type} (h : Host) (event : α) (s : State)
    (p : Player) (hp : s.BCLplayer = some p) :
    ∃ regs : List Registration,
      (onPlayerReady h event s).thrown = none ∧
      (onPlayerReady h event s).state.BCLvideoPlayer = some (h.getModule p .VIDEO_PLAYER) ∧
      (onPlayerReady h event s).state.listeners = s.listeners ++ regs ∧
      regs.length = 6 ∧
      (∀ r ∈ regs, r.target = h.getModule p .VIDEO_PLAYER ∧ r.handler = .onMediaBegin) ∧
      (∀ k : BCMediaEvent, (regs.filter (fun r => r.kind = k)).length = 1) := by
  refine ⟨[⟨h.getModule p .VIDEO_PLAYER, .BEGIN, .onMediaBegin⟩,
    ⟨h.getModule p .VIDEO_PLAYER, .COMPLETE, .onMediaBegin⟩,
    ⟨h.getModule p .VIDEO_PLAYER, .CHANGE, .onMediaBegin⟩,
    ⟨h.getModule p .VIDEO_PLAYER, .ERROR, .onMediaBegin⟩,
    ⟨h.getModule p .VIDEO_PLAYER, .PLAY, .onMediaBegin⟩,
    ⟨h.getModule p .VIDEO_PLAYER, .STOP, .onMediaBegin⟩], ?_, ?_, ?_, rfl, ?_, ?_⟩
  · simp [onPlayerReady, hp]
  · simp [onPlayerReady, hp, addEventListener]
  · simp [onPlayerReady, hp, addEventListener]
  · intro r hr
    simp only [List.mem_cons, List.mem_singleton, List.not_mem_nil, or_false] at hr
    rcases hr with rfl | rfl | rfl | rfl | rfl | rfl <;> exact ⟨rfl, rfl⟩
  · intro k
    cases k <;> rfl

/-- Witness for C6: `onPlayerReady` on the demo page after the player loaded. -/
theorem onPlayerReady_registers_six_witness :
    (onPlayerLoaded demoHost "myExperience" (State.initial (.queue []))).state.BCLplayer =
      some ⟨1⟩ ∧
    ∃ regs : List Registration,
      (onPlayerReady demoHost ()
        (onPlayerLoaded demoHost "myExperience" (State.initial (.queue []))).state).thrown =
          none ∧
      (onPlayerReady demoHost ()
        (onPlayerLoaded demoHost "myExperience"
          (State.initial (.queue []))).state).state.BCLvideoPlayer =
          some (demoHost.getModule ⟨1⟩ .VIDEO_PLAYER) ∧
      (onPlayerReady demoHost ()
        (onPlayerLoaded demoHost "myExperience" (State.initial (.queue []))).state).state.listeners =
          (onPlayerLoaded demoHost "myExperience"
            (State.initial (.queue []))).state.listeners ++ regs ∧
      regs.length = 6 ∧
      (∀ r ∈ regs, r.target = demoHost.getModule ⟨1⟩ .VIDEO_PLAYER ∧
        r.handler = .onMediaBegin) ∧
      (∀ k : BCMediaEvent, (regs.filter (fun r => r.kind = k)).length = 1) :=
  ⟨by decide,
    onPlayerReady_registers_six demoHost ()
      (onPlayerLoaded demoHost "myExperience" (State.initial (.queue []))).state ⟨1⟩
      (by decide)⟩

/-- C10: the module-level references are written only by `onPlayerLoaded` and
`onPlayerReady`.  An `onPlayerLoaded` that returns normally has stored the
resolved player and its experience module and left the video player module
reference as it was; an `onPlayerReady` that returns normally has stored the
video player module of the active player and left the active player and the
experience module references as they were; `onMediaBegin`, for every event and
whether it returns or throws, and `onPlayerError` leave every reference as it
was. -/
theorem references_written_only_by_load_and_ready :
    (∀ (h : Host) (id : String) (s : State), (onPlayerLoaded h id s).thrown = none →
      ∃ p : Player, h.getExperience id = .found p ∧
        (onPlayerLoaded h id s).state.BCLplayer = some p ∧
        (onPlayerLoaded h id s).state.BCLexperienceModule = some (h.getModule p .EXPERIENCE) ∧
        (onPlayerLoaded h id s).state.BCLvideoPlayer = s.BCLvideoPlayer ∧
        (onPlayerLoaded h id s).state.BCLcurrentVideo = s.BCLcurrentVideo) ∧
    (∀ (α : Type) (event : α) (h : Host) (s : State), (onPlayerReady h event s).thrown = none →
      ∃ p : Player, s.BCLplayer = some p ∧
        (onPlayerReady h event s).state.BCLvideoPlayer = some (h.getModule p .VIDEO_PLAYER) ∧
        (onPlayerReady h event s).state.BCLplayer = s.BCLplayer ∧
        (onPlayerReady h event s).state.BCLexperienceModule = s.BCLexperienceModule ∧
        (onPlayerReady h event s).state.BCLcurrentVideo = s.BCLcurrentVideo) ∧
    (∀ (h : Host) (event : MediaEvent) (s : State),
      (onMediaBegin h event s).state.BCLplayer = s.BCLplayer ∧
      (onMediaBegin h event s).state.BCLexperienceModule = s.BCLexperienceModule ∧
      (onMediaBegin h event s).state.BCLvideoPlayer = s.BCLvideoPlayer ∧
      (onMediaBegin h event s).state.BCLcurrentVideo = s.BCLcurrentVideo) ∧
    (∀ (α : Type) (event : α) (s : State),
      (onPlayerError event s).state.BCLplayer = s.BCLplayer ∧
      (onPlayerError event s).state.BCLexperienceModule = s.BCLexperienceModule ∧
      (onPlayerError event s).state.BCLvideoPlayer = s.BCLvideoPlayer ∧
      (onPlayerError event s).state.BCLcurrentVideo = s.BCLcurrentVideo) := by
  refine ⟨?_, ?_, ?_, ?_⟩
  · intro h id s hn
    unfold onPlayerLoaded at hn ⊢
    cases hl : h.getExperience id with
    | found p => exact ⟨p, rfl, rfl, rfl, rfl, rfl⟩
    | missing => rw [hl] at hn; exact absurd hn (by simp)
    | raises => rw [hl] at hn; exact absurd hn (by simp)
  · intro α event h s hn
    unfold onPlayerReady at hn ⊢
    cases hp : s.BCLplayer with
    | none => rw [hp] at hn; exact absurd hn (by simp)
    | some p => exact ⟨p, rfl, rfl, rfl, rfl, rfl⟩
  · intro h event s
    obtain ⟨h1, h2, h3, h4, _⟩ := onMediaBegin_frame h event s
    exact ⟨h1, h2, h3, h4⟩
  · intro α event s
    exact ⟨rfl, rfl, rfl, rfl⟩

/-- Witness for C10: the load and ready calls of the demo page return normally
and write the references named. -/
theorem references_written_only_by_load_and_ready_witness :
    (onPlayerLoaded demoHost "myExperience" (State.initial (.queue []))).thrown = none ∧
    (onPlayerReady demoHost () demoReady).thrown = none ∧
    (∃ p : Player, demoHost.getExperience "myExperience" = .found p ∧
        (onPlayerLoaded demoHost "myExperience" (State.initial (.queue []))).state.BCLplayer =
          some p ∧
        (onPlayerLoaded demoHost "myExperience"
          (State.initial (.queue []))).state.BCLexperienceModule =
          some (demoHost.getModule p .EXPERIENCE) ∧
        (onPlayerLoaded demoHost "myExperience" (State.initial (.queue []))).state.BCLvideoPlayer =
          (State.initial (.queue [])).BCLvideoPlayer ∧
        (onPlayerLoaded demoHost "myExperience" (State.initial (.queue []))).state.BCLcurrentVideo =
          (State.initial (.queue [])).BCLcurrentVideo) ∧
    (∃ p : Player, demoReady.BCLplayer = some p ∧
        (onPlayerReady demoHost () demoReady).state.BCLvideoPlayer =
          some (demoHost.getModule p .VIDEO_PLAYER) ∧
        (onPlayerReady demoHost () demoReady).state.BCLplayer = demoReady.BCLplayer ∧
        (onPlayerReady demoHost () demoReady).state.BCLexperienceModule =
          demoReady.BCLexperienceModule ∧
        (onPlayerReady demoHost () demoReady).state.BCLcurrentVideo =
          demoReady.BCLcurrentVideo) :=
  ⟨by decide, by decide,
    references_written_only_by_load_and_ready.1 demoHost "myExperience"
      (State.initial (.queue [])) (by decide),
    references_written_only_by_load_and_ready.2.1 Unit () demoHost demoReady (by decide)⟩

/-- Counterexample to C9 as stated: after a load, a ready and a second load whose
identifier the player API does not resolve, the experience module and the video
player module references are set and the active player reference is unset. -/
theorem player_set_before_modules_counterexample :
    (run demoFailedReload (State.initial (.queue []))).BCLexperienceModule = some ⟨10⟩ ∧
    (run demoFailedReload (State.initial (.queue []))).BCLvideoPlayer = some ⟨11⟩ ∧
    (run demoFailedReload (State.initial (.queue []))).BCLplayer = none := by
  decide

/-- One callback keeps "a module reference is set only if the active player
reference is set", provided it is not a load whose lookup returns `undefined`. -/
theorem step_keeps_player_set (h : Host) (c : Call) (s : State)
    (hres : ∀ id : String, c = .playerLoaded id → h.getExperience id ≠ .missing)
    (hinv : s.BCLexperienceModule ≠ none ∨ s.BCLvideoPlayer ≠ none → s.BCLplayer ≠ none) :
    (step h c s).state.BCLexperienceModule ≠ none ∨ (step h c s).state.BCLvideoPlayer ≠ none →
      (step h c s).state.BCLplayer ≠ none := by
  cases c with
  | playerError => exact hinv
  | playerLoaded id =>
    have hm := hres id rfl
    simp only [step, onPlayerLoaded]
    cases hl : h.getExperience id with
    | found p => intro _; simp
    | missing => exact absurd hl hm
    | raises => exact hinv
  | playerReady =>
    simp only [step, onPlayerReady]
    cases hp : s.BCLplayer with
    | none => simpa [hp] using hinv
    | some p => intro _; simp [addEventListener]
  | mediaEvent e =>
    obtain ⟨h1, h2, h3, _, _⟩ := onMediaBegin_frame h e s
    simp only [step]
    rw [h1, h2, h3]
    exact hinv

/-- C9, amended: in every state reached from the initial all-unset state by a
sequence of `onPlayerLoaded`, `onPlayerReady`, `onMediaBegin` and
`onPlayerError` calls, calls that throw included, in which no `onPlayerLoaded`
lookup returns `undefined`, whenever the experience module or the video player
module reference is set, the active player reference is set too. -/
theorem player_set_before_modules (calls : List (Host × Call)) (g : Gaq)
    (hres : ∀ hc ∈ calls, ∀ id : String,
      hc.2 = .playerLoaded id → hc.1.getExperience id ≠ .missing) :
    (run calls (State.initial g)).BCLexperienceModule ≠ none ∨
      (run calls (State.initial g)).BCLvideoPlayer ≠ none →
    (run calls (State.initial g)).BCLplayer ≠ none := by
  have gen : ∀ (calls : List (Host × Call)) (s : State),
      (∀ hc ∈ calls, ∀ id : String,
        hc.2 = .playerLoaded id → hc.1.getExperience id ≠ .missing) →
      (s.BCLexperienceModule ≠ none ∨ s.BCLvideoPlayer ≠ none → s.BCLplayer ≠ none) →
      ((run calls s).BCLexperienceModule ≠ none ∨ (run calls s).BCLvideoPlayer ≠ none →
        (run calls s).BCLplayer ≠ none) := by
    intro calls
    induction calls with
    | nil => intro s _ hinv; exact hinv
    | cons hc rest ih =>
      intro s hres hinv
      obtain ⟨h, c⟩ := hc
      simp only [run]
      apply ih
      · intro hc2 hmem
        exact hres hc2 (List.mem_cons_of_mem _ hmem)
      · exact step_keeps_player_set h c s (hres (h, c) (List.mem_cons_self _ _)) hinv
  apply gen calls (State.initial g) hres
  intro hor
  rcases hor with hx | hx <;> exact absurd rfl hx

/-- Witness for the amended C9 on `demoSession`, which contains calls that throw
and ends with both module references and the active player set. -/
theorem player_set_before_modules_witness :
    (∀ hc ∈ demoSession, ∀ id : String,
      hc.2 = .playerLoaded id → hc.1.getExperience id ≠ .missing) ∧
    ((run demoSession (State.initial (.queue []))).BCLexperienceModule ≠ none ∨
      (run demoSession (State.initial (.queue []))).BCLvideoPlayer ≠ none) ∧
    (run demoSession (State.initial (.queue []))).BCLplayer ≠ none := by
  have hres : ∀ hc ∈ demoSession, ∀ id : String,
      hc.2 = .playerLoaded id → hc.1.getExperience id ≠ .missing := by
    intro hc hmem id hid
    simp only [demoSession, List.mem_cons, List.mem_singleton, List.not_mem_nil, or_false] at hmem
    rcases hmem with rfl | rfl | rfl | rfl | rfl | rfl | rfl | rfl <;>
      simp at hid <;> subst hid <;> simp [demoHost]
  have hset : (run demoSession (State.initial (.queue []))).BCLexperienceModule ≠ none ∨
      (run demoSession (State.initial (.queue []))).BCLvideoPlayer ≠ none :=
    Or.inl (by decide)
  exact ⟨hres, hset, player_set_before_modules demoSession (.queue []) hres hset⟩

end Playlist
